import Mathlib

/-!
Verification of the Calendar-Agent message-understanding pipeline.

This file shallowly embeds the rule-based pipeline of `agent.py` (intent
classification, slot extraction, reference resolution, the booking decision
engine of `handle_user_message`) together with the booking ledger of
`FastAPI/database.py`, and proves or refutes the frozen claims about it.

External collaborators are modelled as explicit parameters:
* `dateparser.search.search_dates` and `dateparser.parse` (a third-party
  natural-language parser) are oracle functions `String → Option DateTime`
  carried in an `Env` record;
* `pytz` timezone conversion is an oracle `String → DateTime → DateTime`;
* the two `datetime.now(...)` calls inside one `handle_user_message`
  invocation are modelled as a single instant `Env.now`;
* the Google-Calendar provider result is an explicit `ProviderResult` value.

Time is modelled at minute granularity (the formatter renders minutes and
every claim is stated at minute precision).  A Python exception escaping
`handle_user_message` is modelled as the result `none` (the FastAPI endpoint
catches it; the ledger is untouched).
-/

namespace CalendarAgent

/-! ## Character-list utilities (Python `str` operations) -/

/-- `msg.lower()` on a character list (ASCII, as in the source's inputs). -/
def lowerL (cs : List Char) : List Char := cs.map Char.toLower

/-- Exact prefix test on character lists. -/
def isPrefixL : List Char → List Char → Bool
  | [], _ => true
  | _ :: _, [] => false
  | a :: as, b :: bs => a == b && isPrefixL as bs

/-- Substring containment (`needle in hay` in Python). -/
def containsL (needle : List Char) : List Char → Bool
  | [] => needle.isEmpty
  | c :: t => isPrefixL needle (c :: t) || containsL needle t

/-- Case-insensitive prefix test; the needle is given already lowercased. -/
def isPrefixCIL : List Char → List Char → Bool
  | [], _ => true
  | _ :: _, [] => false
  | a :: as, b :: bs => a == b.toLower && isPrefixCIL as bs

/-- `needle in hay.lower()` for a lowercase literal needle. -/
def containsCI (hay needle : String) : Bool := containsL needle.data (lowerL hay.data)

/-- Value of a decimal digit character. -/
def digitVal (c : Char) : Nat := c.toNat - 48

/-- Python `int(...)` on a run of digit characters. -/
def digitsVal (ds : List Char) : Nat := ds.foldl (fun a c => a * 10 + digitVal c) 0

/-- Split off the maximal leading run of decimal digits. -/
def takeDigits : List Char → List Char × List Char
  | [] => ([], [])
  | c :: t =>
    if c.isDigit then
      let p := takeDigits t
      (c :: p.1, p.2)
    else ([], c :: t)

/-- Drop the maximal leading run of whitespace (regex `\s*`). -/
def dropSpacesL : List Char → List Char
  | [] => []
  | c :: t => if c.isWhitespace then dropSpacesL t else c :: t

/-- Split off the maximal leading run of whitespace, keeping it. -/
def spanSpaces : List Char → List Char × List Char
  | [] => ([], [])
  | c :: t =>
    if c.isWhitespace then
      let p := spanSpaces t
      (c :: p.1, p.2)
    else ([], c :: t)

/-- Split off the maximal leading run satisfying `p` (greedy `[...]+`). -/
def spanPred (p : Char → Bool) : List Char → List Char × List Char
  | [] => ([], [])
  | c :: t =>
    if p c then
      let q := spanPred p t
      (c :: q.1, q.2)
    else ([], c :: t)

/-- Python `str.strip()`: drop whitespace at both ends. -/
def stripL (cs : List Char) : List Char :=
  ((cs.dropWhile Char.isWhitespace).reverse.dropWhile Char.isWhitespace).reverse

/-- Python `str.title()`: uppercase every letter that follows a non-letter,
lowercase the other letters (ASCII behaviour). -/
def titleGo : Bool → List Char → List Char
  | _, [] => []
  | prevAlpha, c :: t =>
    if c.isAlpha then
      (if prevAlpha then c.toLower else c.toUpper) :: titleGo true t
    else c :: titleGo false t

/-! ## Regex models

Each definition below embeds one concrete `re.search`/`re.split` call of
`agent.py`, with Python's leftmost-match and greedy/backtracking semantics
specialised to that pattern (all the patterns are deterministic enough that
the backtracking collapses to the explicit case analysis coded here).
-/

/-- `re.search(r"1 ?hour", msg, re.I)` viewed as a Boolean: the lowercased
text contains `"1 hour"` or `"1hour"`. -/
def oneHourB (msg : String) : Bool :=
  let low := lowerL msg.data
  containsL "1 hour".data low || containsL "1hour".data low

/-- One anchored attempt of `(\d+)\s*lit` (case-insensitive literal tail):
a nonempty digit run, then whitespace, then the literal. -/
def numLitAt (lit : List Char) (cs : List Char) : Option Nat :=
  let p := takeDigits cs
  if p.1.isEmpty then none
  else if isPrefixCIL lit (dropSpacesL p.2) then some (digitsVal p.1) else none

/-- Leftmost search for `(\d+)\s*lit`, returning group 1 as a number. -/
def numLitSearch (lit : List Char) : List Char → Option Nat
  | [] => none
  | c :: t =>
    match numLitAt lit (c :: t) with
    | some n => some n
    | none => numLitSearch lit t

/-- `re.search(r"(\d+)\s*min", msg, re.I)`, group 1 as `int`. -/
def minMatch (msg : String) : Option Nat := numLitSearch "min".data msg.data

/-- `re.search(r"(\d+)\s*hour", msg, re.I)`, group 1 as `int`. -/
def hourNMatch (msg : String) : Option Nat := numLitSearch "hour".data msg.data

/-- One anchored attempt of `(\d{1,2})(?::(\d{2}))?\s*(am|pm)` (re.I).
A digit run longer than 2 leaves a digit after the `\d{1,2}` group, which
no later pattern part can consume, so the attempt fails. -/
def timeSlotsAt (cs : List Char) : Option (Nat × Nat × Bool) :=
  let p := takeDigits cs
  if p.1.isEmpty || decide (p.1.length > 2) then none
  else
    let hour := digitsVal p.1
    let q : Nat × List Char :=
      match p.2 with
      | ':' :: a :: b :: t => if a.isDigit && b.isDigit then (digitsVal [a, b], t) else (0, p.2)
      | _ => (0, p.2)
    let r3 := dropSpacesL q.2
    if isPrefixCIL "am".data r3 then some (hour, q.1, false)
    else if isPrefixCIL "pm".data r3 then some (hour, q.1, true)
    else none

/-- Leftmost search for the slot-extractor time pattern. -/
def timeSlotsSearch : List Char → Option (Nat × Nat × Bool)
  | [] => none
  | c :: t =>
    match timeSlotsAt (c :: t) with
    | some x => some x
    | none => timeSlotsSearch t

/-- `re.search(r'(\d{1,2})(?::(\d{2}))?\s*(am|pm)', msg, re.I)` as
(hour, minute, is-pm). -/
def timeSlotsMatch (msg : String) : Option (Nat × Nat × Bool) :=
  timeSlotsSearch msg.data

/-- One anchored attempt of `(\d{1,2}(:\d{2})?\s*(am|pm)?)`; everything after
the digits is optional, so the attempt succeeds at any digit and group 0 is
the digits, an optional `:MM`, any following whitespace, and an optional
am/pm in original case. -/
def timeRefAt (cs : List Char) : Option (List Char) :=
  let p := takeDigits cs
  if p.1.isEmpty then none
  else
    let d := p.1.take 2
    let rest := p.1.drop 2 ++ p.2
    let q : List Char × List Char :=
      match rest with
      | ':' :: a :: b :: t =>
        if a.isDigit && b.isDigit then ([':', a, b], t) else ([], rest)
      | _ => ([], rest)
    let sp := spanSpaces q.2
    let ap : List Char :=
      if isPrefixCIL "am".data sp.2 then sp.2.take 2
      else if isPrefixCIL "pm".data sp.2 then sp.2.take 2
      else []
    some (d ++ q.1 ++ sp.1 ++ ap)

/-- Leftmost search for the reference time pattern. -/
def timeRefSearch : List Char → Option (List Char)
  | [] => none
  | c :: t =>
    match timeRefAt (c :: t) with
    | some x => some x
    | none => timeRefSearch t

/-- `re.search(r"(\d{1,2}(:\d{2})?\s*(am|pm)?)", msg, re.I)`, group 0. -/
def timeRefMatch (msg : String) : Option String :=
  (timeRefSearch msg.data).map String.mk

/-- Character class `[^,\\.;]` of the summary slot pattern. -/
def allowedSummaryChar (c : Char) : Bool :=
  !(c == ',' || c == '\\' || c == '.' || c == ';')

/-- One anchored attempt of `for ([^,\\.;]+)` (re.I). -/
def forPhraseAt (cs : List Char) : Option (List Char) :=
  if isPrefixCIL "for ".data cs then
    let g := (spanPred allowedSummaryChar (cs.drop 4)).1
    if g.isEmpty then none else some g
  else none

/-- Leftmost search for `for ([^,\\.;]+)`. -/
def forPhraseSearch : List Char → Option (List Char)
  | [] => none
  | c :: t =>
    match forPhraseAt (c :: t) with
    | some x => some x
    | none => forPhraseSearch t

/-- `re.search(r"for ([^,\\.;]+)", msg, re.I)`, group 1 stripped. -/
def summarySlotsMatch (msg : String) : Option String :=
  (forPhraseSearch msg.data).map (fun g => String.mk (stripL g))

/-- Tail character class `[A-Za-z_]` of the timezone pattern. -/
def isTzTail (c : Char) : Bool := c.isAlpha || c == '_'

/-- One anchored attempt of `([A-Za-z]+/[A-Za-z_]+)` (case-sensitive). -/
def tzAt (cs : List Char) : Option (List Char) :=
  let p := spanPred Char.isAlpha cs
  if p.1.isEmpty then none
  else
    match p.2 with
    | '/' :: t =>
      let q := spanPred isTzTail t
      if q.1.isEmpty then none else some (p.1 ++ '/' :: q.1)
    | _ => none

/-- Leftmost search for the timezone pattern. -/
def tzSearch : List Char → Option (List Char)
  | [] => none
  | c :: t =>
    match tzAt (c :: t) with
    | some x => some x
    | none => tzSearch t

/-- `re.search(r"([A-Za-z]+/[A-Za-z_]+)", msg)`, group 1. -/
def tzMatch (msg : String) : Option String := (tzSearch msg.data).map String.mk

/-- Character class `[A-Za-z ,and]` of the attendee pattern. -/
def attChar (c : Char) : Bool := c.isAlpha || c == ' ' || c == ','

/-- One anchored attempt of `with ([A-Za-z ,and]+)` (re.I). -/
def withPhraseAt (cs : List Char) : Option (List Char) :=
  if isPrefixCIL "with ".data cs then
    let g := (spanPred attChar (cs.drop 5)).1
    if g.isEmpty then none else some g
  else none

/-- Leftmost search for the attendee pattern. -/
def withPhraseSearch : List Char → Option (List Char)
  | [] => none
  | c :: t =>
    match withPhraseAt (c :: t) with
    | some x => some x
    | none => withPhraseSearch t

/-- `re.split(r",| and ", g)` (case-sensitive, as in the source). -/
def splitAttGo (acc : List Char) : List Char → List (List Char)
  | [] => [acc.reverse]
  | c :: t =>
    if c == ',' then acc.reverse :: splitAttGo [] t
    else if isPrefixL " and ".data (c :: t) then
      acc.reverse :: splitAttGo [] (t.drop 4)
    else splitAttGo (c :: acc) t
  termination_by cs => cs.length
  decreasing_by
    · simp
    · simp [List.length_drop]; omega
    · simp

/-- `extract_attendees`: match `with <names>`, split on `,`/` and `,
strip, keep nonempty, title-case. -/
def extractAttendees (msg : String) : List String :=
  match withPhraseSearch msg.data with
  | none => []
  | some g =>
    (((splitAttGo [] g).map stripL).filter (fun n => !n.isEmpty)).map
      (fun n => String.mk (titleGo false n))

/-- Character class `[^,\\.]` of the reference summary pattern. -/
def allowedRefChar (c : Char) : Bool := !(c == ',' || c == '\\' || c == '.')

/-- Group 1 alternation `(event|call|appointment)` (re.I); the alternatives
start with distinct letters, so at most one applies at a position. -/
def word1At (cs : List Char) : Option (List Char) :=
  if isPrefixCIL "event".data cs then some (cs.drop 5)
  else if isPrefixCIL "call".data cs then some (cs.drop 4)
  else if isPrefixCIL "appointment".data cs then some (cs.drop 11)
  else none

/-- Group 2 alternation `(about|on|for)` (re.I). -/
def word2At (cs : List Char) : Option (List Char) :=
  if isPrefixCIL "about".data cs then some (cs.drop 5)
  else if isPrefixCIL "on".data cs then some (cs.drop 2)
  else if isPrefixCIL "for".data cs then some (cs.drop 3)
  else none

/-- One anchored attempt of
`(event|call|appointment) (about|on|for) ([^,\\.]+)` (re.I), group 3. -/
def summaryRefAt (cs : List Char) : Option (List Char) :=
  match word1At cs with
  | none => none
  | some r1 =>
    match r1 with
    | ' ' :: r1b =>
      match word2At r1b with
      | none => none
      | some r2 =>
        match r2 with
        | ' ' :: r2b =>
          let g := (spanPred allowedRefChar r2b).1
          if g.isEmpty then none else some g
        | _ => none
    | _ => none

/-- Leftmost search for the reference summary pattern. -/
def summaryRefSearch : List Char → Option (List Char)
  | [] => none
  | c :: t =>
    match summaryRefAt (c :: t) with
    | some x => some x
    | none => summaryRefSearch t

/-- `re.search(r"(event|call|appointment) (about|on|for) ([^,\\.]+)", msg,
re.I)`, group 3 stripped. -/
def summaryRefMatch (msg : String) : Option String :=
  (summaryRefSearch msg.data).map (fun g => String.mk (stripL g))

/-- The vague-time phrases of `extract_slots`. -/
def vagueWords : List String :=
  ["next week", "someday", "later", "soon", "whenever", "some time", "not sure"]

/-- `any(w in user_msg.lower() for w in vague_words)`. -/
def vagueB (msg : String) : Bool := vagueWords.any (fun w => containsCI msg w)

/-- `extract_intent` of `agent.py`: fixed first-match-wins keyword families,
case-insensitive substring matching. -/
def extractIntent (msg : String) : String :=
  let has : String → Bool := fun w => containsCI msg w
  if has "cancel" || has "delete" || has "remove" then "cancel"
  else if has "edit" || has "reschedule" || has "move" || has "change" then "edit"
  else if has "book" || has "schedule" || has "set up" || has "add" then "book"
  else if has "list" || has "show" || has "what" || has "upcoming" || has "events" ||
      has "history" || has "held" then "list"
  else if has "free" || has "available" || has "slots" then "check"
  else if has "help" || has "how" then "help"
  else "unknown"

/-- `extract_reference` of `agent.py`: time token, then summary phrase, then
literal `last`/`next`, then pronouns mapped to `"context"`. -/
def extractReference (msg : String) : Option String :=
  match timeRefMatch msg with
  | some t => some t
  | none =>
    match summaryRefMatch msg with
    | some s => some s
    | none =>
      if containsCI msg "last" then some "last"
      else if containsCI msg "next" then some "next"
      else if containsCI msg "it" || containsCI msg "that" || containsCI msg "this" then
        some "context"
      else none

/-! ## Timezone-aware instants at minute granularity

`datetime`/`dateparser` values are modelled as civil datetimes in UTC at
minute granularity (seconds and sub-minute parts play no role in any claim;
the slot serialiser always emits `:00` seconds and a `+00:00` offset).
The civil/linear conversions follow the standard Gregorian-calendar
day-counting algorithm, with day 0 = 0000-03-01.
-/

structure DateTime where
  year : Nat
  month : Nat
  day : Nat
  hour : Nat
  minute : Nat
  deriving DecidableEq, Repr

/-- Days since 0000-03-01 of a civil date (valid for `year ≥ 1`). -/
def civilToDays (y m d : Nat) : Nat :=
  let y2 := if m ≤ 2 then y - 1 else y
  let era := y2 / 400
  let yoe := y2 % 400
  let mp := (m + 9) % 12
  let doy := (153 * mp + 2) / 5 + d - 1
  let doe := yoe * 365 + yoe / 4 - yoe / 100 + doy
  era * 146097 + doe

/-- Civil date of a day count (inverse of `civilToDays`). -/
def civilFromDays (z : Nat) : Nat × Nat × Nat :=
  let era := z / 146097
  let doe := z % 146097
  let yoe := (doe - doe / 1460 + doe / 36524 - doe / 146096) / 365
  let y := yoe + era * 400
  let doy := doe - (365 * yoe + yoe / 4 - yoe / 100)
  let mp := (5 * doy + 2) / 153
  let d := doy - (153 * mp + 2) / 5 + 1
  let m := if mp < 10 then mp + 3 else mp - 9
  (if m ≤ 2 then y + 1 else y, m, d)

/-- Minutes since 0000-03-01T00:00 (the instant of a `DateTime`). -/
def toMin (dt : DateTime) : Nat :=
  civilToDays dt.year dt.month dt.day * 1440 + dt.hour * 60 + dt.minute

/-- The `DateTime` of a minute count. -/
def fromMin (t : Nat) : DateTime :=
  let c := civilFromDays (t / 1440)
  ⟨c.1, c.2.1, c.2.2, t % 1440 / 60, t % 60⟩

/-- `dt + timedelta(minutes=n)`. -/
def addMinutes (dt : DateTime) (n : Nat) : DateTime := fromMin (toMin dt + n)

/-- Two-digit zero padding (as in `isoformat`/`strftime`). -/
def pad2 (n : Nat) : String := if n < 10 then "0" ++ toString n else toString n

/-- Four-digit zero padding for years. -/
def pad4 (n : Nat) : String :=
  if n < 10 then "000" ++ toString n
  else if n < 100 then "00" ++ toString n
  else if n < 1000 then "0" ++ toString n
  else toString n

/-- `dt.isoformat()` of a timezone-aware UTC datetime with zero seconds. -/
def isoformat (dt : DateTime) : String :=
  pad4 dt.year ++ "-" ++ pad2 dt.month ++ "-" ++ pad2 dt.day ++ "T" ++
    pad2 dt.hour ++ ":" ++ pad2 dt.minute ++ ":00+00:00"

/-- `strftime("%A")` weekday name for a day count (day 719468 = 1970-01-01
was a Thursday). -/
def weekdayName (days : Nat) : String :=
  match (days + 2) % 7 with
  | 0 => "Monday"
  | 1 => "Tuesday"
  | 2 => "Wednesday"
  | 3 => "Thursday"
  | 4 => "Friday"
  | 5 => "Saturday"
  | _ => "Sunday"

/-- `strftime("%B")` month name. -/
def monthName (m : Nat) : String :=
  match m with
  | 1 => "January"
  | 2 => "February"
  | 3 => "March"
  | 4 => "April"
  | 5 => "May"
  | 6 => "June"
  | 7 => "July"
  | 8 => "August"
  | 9 => "September"
  | 10 => "October"
  | 11 => "November"
  | 12 => "December"
  | _ => ""

/-- `strftime("%I")`: 12-hour clock hour. -/
def hour12 (h : Nat) : Nat := if h % 12 = 0 then 12 else h % 12

/-- `strftime("%p")`: true for PM. -/
def isPM (h : Nat) : Bool := decide (12 ≤ h)

/-- The information content of `strftime("%A, %B %d at %I:%M %p")`:
the fields that appear in the rendered text (there is no year field). -/
structure Rendered where
  weekday : String
  monthStr : String
  day : Nat
  h12 : Nat
  minute : Nat
  pm : Bool
  deriving DecidableEq, Repr

/-- The fields rendered by `strftime("%A, %B %d at %I:%M %p")`. -/
def toRendered (dt : DateTime) : Rendered :=
  ⟨weekdayName (civilToDays dt.year dt.month dt.day), monthName dt.month,
    dt.day, hour12 dt.hour, dt.minute, isPM dt.hour⟩

/-- Assembly of `strftime("%A, %B %d at %I:%M %p")` (`%d` and `%I` are
zero-padded by Python). -/
def renderedText (r : Rendered) : String :=
  r.weekday ++ ", " ++ r.monthStr ++ " " ++ pad2 r.day ++ " at " ++
    pad2 r.h12 ++ ":" ++ pad2 r.minute ++ " " ++ (if r.pm then "PM" else "AM")

/-- `dt.strftime("%A, %B %d at %I:%M %p")`. -/
def renderDT (dt : DateTime) : String := renderedText (toRendered dt)

/-- Field bounds of a civil datetime as produced by `datetime`/`dateparser`. -/
def ValidDT (dt : DateTime) : Prop :=
  1 ≤ dt.year ∧ 1 ≤ dt.month ∧ dt.month ≤ 12 ∧ 1 ≤ dt.day ∧ dt.day ≤ 31 ∧
    dt.hour ≤ 23 ∧ dt.minute ≤ 59

instance (dt : DateTime) : Decidable (ValidDT dt) := by
  unfold ValidDT; infer_instance

/-- Modelled from the spec: the natural-language re-parse (dateparser) of a
rendered "Weekday, Month Day at H:MM AM/PM" text.  The rendered text carries
no year, so the parser must be told which year to place the date in; it
recovers month from the month name and the 24-hour clock from H/AM-PM. -/
def monthFromName (s : String) : Option Nat :=
  match s with
  | "January" => some 1
  | "February" => some 2
  | "March" => some 3
  | "April" => some 4
  | "May" => some 5
  | "June" => some 6
  | "July" => some 7
  | "August" => some 8
  | "September" => some 9
  | "October" => some 10
  | "November" => some 11
  | "December" => some 12
  | _ => none

/-- 12-hour to 24-hour conversion used by the modelled re-parse. -/
def hour24 (h12v : Nat) (pm : Bool) : Nat :=
  if pm then (if h12v = 12 then 12 else h12v + 12)
  else (if h12v = 12 then 0 else h12v)

/-- Modelled from the spec: re-parse the rendered fields, assuming `year`. -/
def parseRendered (r : Rendered) (year : Nat) : Option DateTime :=
  match monthFromName r.monthStr with
  | none => none
  | some m => some ⟨year, m, r.day, hour24 r.h12 r.pm, r.minute⟩

/-! ## The booking ledger (`FastAPI/database.py`)

A row of the `bookings` table.  Ids are assigned by `AUTOINCREMENT`,
modelled by the `nextId` counter; a row is never physically removed.
-/

structure Booking where
  id : Nat
  summary : String
  event_id : String
  start_time : String
  end_time : String
  timezone : String
  status : String
  created_at : String
  updated_at : String
  deriving DecidableEq, Repr

structure DB where
  rows : List Booking
  nextId : Nat
  deriving DecidableEq, Repr

def dbEmpty : DB := ⟨[], 0⟩

/-- `save_booking`: INSERT a fresh `active` row. -/
def dbSave (summary eid start endS tz nowS : String) (db : DB) : DB :=
  { rows := db.rows ++
      [⟨db.nextId, summary, eid, start, endS, tz, "active", nowS, nowS⟩],
    nextId := db.nextId + 1 }

/-- Lexicographic order on character lists by codepoint (UTF-8 byte order,
as SQLite compares TEXT). -/
def leL : List Char → List Char → Bool
  | [], _ => true
  | _ :: _, [] => false
  | a :: as, b :: bs => if a == b then leL as bs else decide (a.toNat < b.toNat)

/-- The `ORDER BY start_time ASC` relation (SQLite TEXT comparison). -/
def bookingLe (a b : Booking) : Prop := leL a.start_time.data b.start_time.data = true

instance : DecidableRel bookingLe :=
  fun a b => inferInstanceAs (Decidable (leL a.start_time.data b.start_time.data = true))

/-- `list_bookings()` with the default status: the active rows sorted by
`start_time` ascending. -/
def listBookings (db : DB) : List Booking :=
  List.insertionSort bookingLe (db.rows.filter (fun r => r.status == "active"))

/-- `get_last_booking()`: the active row with the greatest id.  `dbSave`
assigns strictly increasing ids in row order and no operation reorders rows,
so this is the last active row in row order. -/
def getLastBooking (db : DB) : Option Booking :=
  (db.rows.filter (fun r => r.status == "active")).getLast?

/-- `cancel_booking`: flip `status` to `cancelled` on the row with this id,
guarded by `status = 'active'`. -/
def dbCancel (nowS : String) (bid : Nat) (db : DB) : DB :=
  { db with rows := db.rows.map (fun r =>
      if r.id == bid && r.status == "active" then
        { r with status := "cancelled", updated_at := nowS }
      else r) }

/-- `update_booking`: overwrite summary/times/timezone on the row with this
id, guarded by `status = 'active'`. -/
def dbUpdate (bid : Nat) (summary start endS tz nowS : String) (db : DB) : DB :=
  { db with rows := db.rows.map (fun r =>
      if r.id == bid && r.status == "active" then
        { r with summary := summary, start_time := start, end_time := endS,
                 timezone := tz, updated_at := nowS }
      else r) }

/-! ## The pipeline state and collaborators -/

/-- A context event reconstructed from chat history
(`get_context_event_from_history`).  The history-scanning regex itself is
outside every claim; the claims take the reconstructed event (or its
absence) as given. -/
structure CtxEvent where
  summary : String
  datetime : Option String
  duration : Nat
  timezone : String
  attendees : List String
  deriving DecidableEq, Repr

/-- The external collaborators of one `handle_user_message` call:
`dateparser.search.search_dates` (first result), `dateparser.parse`,
`pytz` timezone conversion, and the current UTC instant.  The two
`datetime.now(...)` calls inside one invocation are modelled as the single
instant `now`. -/
structure Env where
  sd : String → Option DateTime
  dp : String → Option DateTime
  tzc : String → DateTime → DateTime
  now : DateTime

/-- The slot record produced by `extract_slots`.  The Python dict stores the
datetime as `dt.isoformat()`; here the field keeps the `DateTime` and
`isoformat` is applied where the consumers re-serialise it. -/
structure Slots where
  dt : Option DateTime
  duration : Nat
  summary : String
  timezone : String
  attendees : List String
  ambiguity : Bool
  reference : Option String
  deriving DecidableEq, Repr

/-- The manual time refill of `extract_slots`: when the parsed datetime is
exactly midnight, re-read an explicit `H(:MM)? am/pm` from the text and
`dt.replace` the clock.  Returns `none` when `replace` would raise
`ValueError` (hour > 23 or minute > 59), modelling the escaping exception. -/
def refineDT (found : Option DateTime) (msg : String) : Option (Option DateTime) :=
  match found with
  | none => some none
  | some d =>
    if d.hour = 0 ∧ d.minute = 0 then
      match timeSlotsMatch msg with
      | none => some (some d)
      | some (h, m, pm) =>
        let h2 := if pm && h != 12 then h + 12 else if !pm && h == 12 then 0 else h
        if h2 ≤ 23 ∧ m ≤ 59 then some (some { d with hour := h2, minute := m })
        else none
    else some (some d)

/-- `extract_slots` of `agent.py`.  `none` models an escaping exception. -/
def extractSlots (env : Env) (msg : String) (ctx : Option CtxEvent) : Option Slots :=
  match refineDT (env.sd msg) msg with
  | none => none
  | some dtOpt =>
    let duration :=
      if oneHourB msg then 60
      else
        match minMatch msg with
        | some n => n
        | none =>
          match hourNMatch msg with
          | some n => n * 60
          | none =>
            match ctx with
            | some c => if c.duration ≠ 0 then c.duration else 30
            | none => 30
    let summary :=
      match summarySlotsMatch msg with
      | some s => s
      | none =>
        match ctx with
        | some c => if c.summary ≠ "" then c.summary else "Event"
        | none => "Event"
    let timezone :=
      match tzMatch msg with
      | some t => t
      | none =>
        match ctx with
        | some c => if c.timezone ≠ "" then c.timezone else "UTC"
        | none => "UTC"
    let attendees :=
      match extractAttendees msg with
      | [] =>
        match ctx with
        | some c => c.attendees
        | none => []
      | l => l
    some { dt := dtOpt, duration := duration, summary := summary,
           timezone := timezone, attendees := attendees,
           ambiguity := dtOpt.isNone || vagueB msg,
           reference := extractReference msg }

/-- The context-event scan of `find_booking_by_reference`: the first listed
booking whose summary contains the (truthy) context summary
case-insensitively, or whose `start_time` contains the (truthy) context
datetime string. -/
def ctxScan (c : CtxEvent) (bs : List Booking) : Option Booking :=
  bs.find? (fun b =>
    (!(c.summary == "") && containsL (lowerL c.summary.data) (lowerL b.summary.data)) ||
      (match c.datetime with
       | some ds => !(ds == "") && containsL ds.data b.start_time.data
       | none => false))

/-- The generic scan of `find_booking_by_reference`: the first listed
booking whose `start_time` contains the (truthy) reference or whose summary
contains it case-insensitively. -/
def genericScan (reference : String) (bs : List Booking) : Option Booking :=
  bs.find? (fun b =>
    !(reference == "") &&
      (containsL reference.data b.start_time.data ||
        containsL (lowerL reference.data) (lowerL b.summary.data)))

/-- `find_booking_by_reference` of `agent.py`: positional `last`/`next` over
the start-time-sorted active rows, a context-event scan for `"context"`
falling through on a miss to the generic substring scan. -/
def findBookingByReference (reference : String) (ctx : Option CtxEvent) (db : DB) :
    Option Booking :=
  if (listBookings db).isEmpty then none
  else if reference = "last" then (listBookings db).getLast?
  else if reference = "next" then (listBookings db).head?
  else
    match ctx with
    | some c =>
      if reference = "context" then
        match ctxScan c (listBookings db) with
        | some b => some b
        | none => genericScan reference (listBookings db)
      else genericScan reference (listBookings db)
    | none => genericScan reference (listBookings db)

/-- `format_event_natural` of `agent.py`.  `pytz` conversion (`tzc`) is
applied exactly when the stored timezone differs from `"UTC"`. -/
def formatEventNatural (env : Env) (b : Booking) : String :=
  match env.dp b.start_time with
  | none => "Your event \x27" ++ b.summary ++ "\x27 (time unknown)."
  | some dt =>
    let dtl := if b.timezone ≠ "UTC" then env.tzc b.timezone dt else dt
    "Your event \x27" ++ b.summary ++ "\x27 is scheduled for " ++ renderDT dtl ++
      " (" ++ b.timezone ++ "). Status: " ++ b.status ++ "."

/-- The collision scan of the book branch: some listed active row has
exactly this `start_time` string. -/
def hasCollision (db : DB) (s : String) : Bool :=
  (listBookings db).any (fun b => b.start_time == s && b.status == "active")

/-- The held/upcoming split of the list branch; `none` models the
`TypeError` raised when a stored `start_time` fails to parse. -/
def listPartition (env : Env) (db : DB) :
    Option (List Booking × List Booking) :=
  if (listBookings db).all (fun b => (env.dp b.start_time).isSome) then
    some ((listBookings db).filter (fun b =>
            match env.dp b.start_time with
            | some d => decide (toMin d < toMin env.now)
            | none => false),
          (listBookings db).filter (fun b =>
            match env.dp b.start_time with
            | some d => decide (toMin env.now ≤ toMin d)
            | none => false))
  else none

/-- Target resolution shared by the cancel and edit branches: an explicit
truthy reference goes through the resolver, otherwise the most recent
active booking. -/
def cancelResolve (slots : Slots) (ctx : Option CtxEvent) (db : DB) : Option Booking :=
  match slots.reference with
  | some r => if r ≠ "" then findBookingByReference r ctx db else getLastBooking db
  | none => getLastBooking db

/-- `event_id` synthesis `f"evt_{int(datetime.now().timestamp())}"` (the
epoch origin of the model is immaterial to every claim). -/
def eventIdOf (now : DateTime) : String := "evt_" ++ toString (toMin now * 60)

/-- The confirmation reply of a successful booking. -/
def bookReply (slots : Slots) (s : String) : String :=
  "Event \x27" ++ slots.summary ++ "\x27 booked for " ++ s ++ " (" ++
      slots.timezone ++ ")." ++
    (if slots.attendees ≠ [] then
      " Attendees: " ++ String.intercalate ", " slots.attendees ++ "."
     else "")

/-- The fixed help reply. -/
def helpText : String :=
  "You can ask me to book, cancel, edit, or list your events. Examples:\n" ++
    "- Book an event tomorrow at 10am for 1 hour with Alice\n" ++
    "- Cancel my last event\n" ++
    "- Edit my next event to Friday at 3pm\n" ++
    "- What are my events this week?\n" ++
    "- You can also use natural language like \x27Add a call after lunch next Monday.\x27"

/-- The `intent == "book"` branch of `handle_user_message`: reject ambiguous
slots, re-parse the serialised datetime to compute the end time, scan for a
`start_time` collision among active rows, and otherwise insert. -/
def bookBranch (env : Env) (slots : Slots) (db : DB) : Option (DB × String) :=
  if slots.ambiguity then
    some (db, "Please specify a clear date and time for your event.")
  else
    match slots.dt with
    | none => none
    | some d =>
      match env.dp (isoformat d) with
      | none => none
      | some d2 =>
        if hasCollision db (isoformat d) then
          some (db, "You already have an event at that time.")
        else
          some (dbSave slots.summary (eventIdOf env.now) (isoformat d)
                  (isoformat (addMinutes d2 slots.duration)) slots.timezone
                  (isoformat env.now) db,
                bookReply slots (isoformat d))

/-- The `intent == "cancel"` branch of `handle_user_message`. -/
def cancelBranch (env : Env) (slots : Slots) (ctx : Option CtxEvent) (db : DB) :
    Option (DB × String) :=
  match cancelResolve slots ctx db with
  | some b =>
    some (dbCancel (isoformat env.now) b.id db,
          "Cancelled event: \x27" ++ b.summary ++ "\x27 at " ++ b.start_time)
  | none => some (db, "No matching event found to cancel.")

/-- The `intent == "edit"` branch of `handle_user_message`: resolve the
target, reject ambiguous slots, and overwrite the target's fields.  No
collision scan guards the overwrite. -/
def editBranch (env : Env) (slots : Slots) (ctx : Option CtxEvent) (db : DB) :
    Option (DB × String) :=
  match cancelResolve slots ctx db with
  | some b =>
    if slots.ambiguity then
      some (db, "Please specify the new date/time or summary for your event.")
    else
      match slots.dt with
      | none => none
      | some d =>
        match env.dp (isoformat d) with
        | none => none
        | some d2 =>
          some (dbUpdate b.id slots.summary (isoformat d)
                  (isoformat (addMinutes d2 slots.duration)) slots.timezone
                  (isoformat env.now) db,
                "Updated event to \x27" ++ slots.summary ++ "\x27 at " ++ isoformat d ++
                  " (" ++ slots.timezone ++ ").")
  | none => some (db, "No matching event found to edit.")

/-- The `intent == "list"` branch of `handle_user_message`. -/
def listBranch (env : Env) (db : DB) : Option (DB × String) :=
  match listPartition env db with
  | none => none
  | some p =>
    if p.2 ≠ [] ∨ p.1 ≠ [] then
      some (db,
        (if p.2 ≠ [] then
          "Here are your upcoming events:\n" ++
            String.intercalate "\n" (p.2.map (formatEventNatural env))
         else "") ++
        (if p.1 ≠ [] then
          "\n\nHere are your past events:\n" ++
            String.intercalate "\n" (p.1.map (formatEventNatural env))
         else ""))
    else some (db, "You have no events scheduled.")

/-- The `intent == "check"` branch of `handle_user_message`. -/
def checkBranch (db : DB) : Option (DB × String) :=
  if listBookings db ≠ [] then
    some (db, "You are busy at:\n" ++ String.intercalate "\n"
      ((listBookings db).map (fun b =>
        b.start_time ++ " - " ++ b.end_time ++ " (" ++ b.timezone ++ ")")))
  else some (db, "You are free! No events scheduled.")

/-- `handle_user_message` of `agent.py`: the booking decision engine.
The result is the ledger after the call and the reply; `none` models an
exception escaping to the endpoint (the ledger is untouched in that case).
The context event stands for `get_context_event_from_history(messages)`. -/
def handleUserMessage (env : Env) (msg : String) (ctx : Option CtxEvent) (db : DB) :
    Option (DB × String) :=
  match extractSlots env msg ctx with
  | none => none
  | some slots =>
    if extractIntent msg = "book" then bookBranch env slots db
    else if extractIntent msg = "cancel" then cancelBranch env slots ctx db
    else if extractIntent msg = "edit" then editBranch env slots ctx db
    else if extractIntent msg = "list" then listBranch env db
    else if extractIntent msg = "check" then checkBranch db
    else if extractIntent msg = "help" then some (db, helpText)
    else some (db, "Sorry, I didn\x27t understand. Please try again or type \x27help\x27.")

/-- The ledger after one `handle_user_message` call: an escaping exception
leaves the ledger untouched (the endpoint catches it). -/
def handleDB (env : Env) (msg : String) (ctx : Option CtxEvent) (db : DB) : DB :=
  match handleUserMessage env msg ctx db with
  | none => db
  | some r => r.1

/-- One chat turn: the collaborators' behaviour at that instant, the user
message, and the context event reconstructed from history. -/
structure Step where
  env : Env
  msg : String
  ctx : Option CtxEvent

/-- A sequence of `handle_user_message` calls against the shared ledger. -/
def runSeq : List Step → DB → DB
  | [], db => db
  | s :: t, db => runSeq t (handleDB s.env s.msg s.ctx db)

/-- The start times of the active rows. -/
def activeStarts (db : DB) : List String :=
  (db.rows.filter (fun r => r.status == "active")).map (fun r => r.start_time)

/-- The C1 invariant: at most one active row per `start_time` string. -/
def UniqueActiveStart (db : DB) : Prop := (activeStarts db).Nodup

instance (db : DB) : Decidable (UniqueActiveStart db) := by
  unfold UniqueActiveStart; infer_instance

/-! ## `confirm_booking_node` (the LangGraph booking path of `agent.py`) -/

/-- Result of the external provider's `create_event` call: the created
event resource, or a dict containing `error`. -/
inductive ProviderResult where
  | ok : ProviderResult
  | err : String → ProviderResult
  deriving DecidableEq, Repr

/-- Ledger operations (`save_booking` / `cancel_booking` /
`update_booking`) issued by a code path. -/
inductive LedgerOp where
  | save : LedgerOp
  | cancel : LedgerOp
  | update : LedgerOp
  deriving DecidableEq, Repr

/-- The expression `datetime.datetime.fromisoformat(...)` as it evaluates
under `agent.py`'s imports: line 3 binds the module, but line 18's
`from datetime import datetime, timedelta` rebinds the name `datetime` to
the class, which has no `datetime` attribute — so the expression raises
`AttributeError` (`none` here) on every input, before looking at the
string. -/
def datetimeDatetimeFromisoformat : String → Option DateTime := fun _ => none

/-- `confirm_booking_node` of `agent.py`: inside the `try`, evaluate
`datetime.datetime.fromisoformat(slots["date/time"])` (which, per
`datetimeDatetimeFromisoformat`, raises on every input because of the
shadowed import), then call the provider and build the reply; any exception
is caught by the node's `except` with the fixed failure reply.  The second
component records the ledger operations the node issues — it issues none on
any path, and the provider branches are unreachable. -/
def confirmBookingNode (dateTimeStr : String) (duration : Nat) (summary : String)
    (pr : ProviderResult) : String × List LedgerOp :=
  match datetimeDatetimeFromisoformat dateTimeStr with
  | none => ("Booking failed. Please try again.", [])
  | some dt =>
    match pr with
    | .err e => ("Failed to book: " ++ e, [])
    | .ok =>
      let _ := duration
      ("✅ Meeting \x27" ++ summary ++ "\x27 booked on " ++ renderDT dt, [])

/-! ## Lemmas about the ledger model -/

/-- Boolean duplicate test on a list of strings. -/
def dupStartB : List String → Bool
  | [] => false
  | s :: t => t.contains s || dupStartB t

theorem nodup_iff_dupStartB (l : List String) : l.Nodup ↔ dupStartB l = false := by
  induction l with
  | nil => simp [dupStartB]
  | cons s t ih => simp [dupStartB, List.nodup_cons, ih, List.elem_iff]

theorem mem_listBookings {db : DB} {b : Booking} :
    b ∈ listBookings db ↔ b ∈ db.rows ∧ b.status = "active" := by
  unfold listBookings
  rw [(List.perm_insertionSort bookingLe _).mem_iff, List.mem_filter]
  simp

theorem hasCollision_iff {db : DB} {s : String} :
    hasCollision db s = true ↔ ∃ b ∈ db.rows, b.status = "active" ∧ b.start_time = s := by
  unfold hasCollision
  rw [List.any_eq_true]
  constructor
  · rintro ⟨b, hb, hcond⟩
    rw [mem_listBookings] at hb
    simp only [Bool.and_eq_true, beq_iff_eq] at hcond
    exact ⟨b, hb.1, hb.2, hcond.1⟩
  · rintro ⟨b, hb, hst, hs⟩
    exact ⟨b, mem_listBookings.mpr ⟨hb, hst⟩, by simp [hs, hst]⟩

theorem mem_activeStarts {db : DB} {st : String} :
    st ∈ activeStarts db ↔ ∃ b ∈ db.rows, b.status = "active" ∧ b.start_time = st := by
  unfold activeStarts
  simp only [List.mem_map, List.mem_filter, beq_iff_eq]
  constructor
  · rintro ⟨b, ⟨hb, hs⟩, he⟩
    exact ⟨b, hb, hs, he⟩
  · rintro ⟨b, hb, hs, he⟩
    exact ⟨b, ⟨hb, hs⟩, he⟩

theorem activeStarts_dbSave (su e st en tz now : String) (db : DB) :
    activeStarts (dbSave su e st en tz now db) = activeStarts db ++ [st] := by
  unfold activeStarts dbSave
  simp [List.filter_append]

theorem uniqueActiveStart_dbSave {su e st en tz now : String} {db : DB}
    (h : UniqueActiveStart db) (hc : hasCollision db st = false) :
    UniqueActiveStart (dbSave su e st en tz now db) := by
  unfold UniqueActiveStart
  rw [activeStarts_dbSave, List.nodup_append]
  refine ⟨h, List.nodup_singleton _, ?_⟩
  rw [List.disjoint_singleton]
  intro hmem
  have : hasCollision db st = true := hasCollision_iff.mpr (mem_activeStarts.mp hmem)
  rw [hc] at this
  exact Bool.false_ne_true this

theorem cancelRows_sublist (nowS : String) (bid : Nat) (rows : List Booking) :
    (((rows.map (fun r =>
        if r.id == bid && r.status == "active" then
          { r with status := "cancelled", updated_at := nowS }
        else r)).filter (fun r => r.status == "active")).map
          (fun r => r.start_time)).Sublist
      ((rows.filter (fun r => r.status == "active")).map (fun r => r.start_time)) := by
  induction rows with
  | nil => simp
  | cons r t ih =>
    simp only [List.map_cons]
    by_cases h : (r.id == bid && r.status == "active") = true
    · rw [if_pos h, List.filter_cons, if_neg (by simp), List.filter_cons,
        if_pos (((Bool.and_eq_true _ _).mp h).2), List.map_cons]
      exact ih.trans (List.sublist_cons_self _ _)
    · rw [if_neg h, List.filter_cons, List.filter_cons]
      by_cases hact : (r.status == "active") = true
      · rw [if_pos hact, if_pos hact, List.map_cons, List.map_cons]
        exact ih.cons₂ _
      · rw [if_neg hact, if_neg hact]
        exact ih

theorem uniqueActiveStart_dbCancel {nowS : String} {bid : Nat} {db : DB}
    (h : UniqueActiveStart db) : UniqueActiveStart (dbCancel nowS bid db) :=
  List.Nodup.sublist (cancelRows_sublist nowS bid db.rows) h

theorem bookBranch_unique {env : Env} {slots : Slots} {db : DB} {out : DB × String}
    (hb : bookBranch env slots db = some out) (h : UniqueActiveStart db) :
    UniqueActiveStart out.1 := by
  unfold bookBranch at hb
  split at hb
  · cases hb; exact h
  · split at hb
    · exact Option.noConfusion hb
    · split at hb
      · exact Option.noConfusion hb
      · split at hb
        · cases hb; exact h
        · cases hb
          exact uniqueActiveStart_dbSave h (Bool.not_eq_true _ |>.mp (by assumption))

theorem cancelBranch_unique {env : Env} {slots : Slots} {ctx : Option CtxEvent}
    {db : DB} {out : DB × String}
    (hb : cancelBranch env slots ctx db = some out) (h : UniqueActiveStart db) :
    UniqueActiveStart out.1 := by
  unfold cancelBranch at hb
  split at hb
  · cases hb; exact uniqueActiveStart_dbCancel h
  · cases hb; exact h

theorem listBranch_fst {env : Env} {db : DB} {out : DB × String}
    (hb : listBranch env db = some out) : out.1 = db := by
  unfold listBranch at hb
  split at hb
  · exact Option.noConfusion hb
  · split at hb
    · cases hb; rfl
    · cases hb; rfl

theorem checkBranch_fst {db : DB} {out : DB × String}
    (hb : checkBranch db = some out) : out.1 = db := by
  unfold checkBranch at hb
  split at hb
  · cases hb; rfl
  · cases hb; rfl

/-- Any single `handle_user_message` call whose message does not classify as
`edit` preserves the uniqueness of active start times. -/
theorem handle_unique {env : Env} {msg : String} {ctx : Option CtxEvent} {db : DB}
    {out : DB × String}
    (hh : handleUserMessage env msg ctx db = some out)
    (hni : extractIntent msg ≠ "edit") (h : UniqueActiveStart db) :
    UniqueActiveStart out.1 := by
  unfold handleUserMessage at hh
  cases hs : extractSlots env msg ctx with
  | none => rw [hs] at hh; exact Option.noConfusion hh
  | some slots =>
    rw [hs] at hh
    dsimp only at hh
    by_cases h1 : extractIntent msg = "book"
    · rw [if_pos h1] at hh; exact bookBranch_unique hh h
    · rw [if_neg h1] at hh
      by_cases h2 : extractIntent msg = "cancel"
      · rw [if_pos h2] at hh; exact cancelBranch_unique hh h
      · rw [if_neg h2, if_neg hni] at hh
        by_cases h4 : extractIntent msg = "list"
        · rw [if_pos h4] at hh; exact (listBranch_fst hh) ▸ h
        · rw [if_neg h4] at hh
          by_cases h5 : extractIntent msg = "check"
          · rw [if_pos h5] at hh; exact (checkBranch_fst hh) ▸ h
          · rw [if_neg h5] at hh
            by_cases h6 : extractIntent msg = "help"
            · rw [if_pos h6] at hh; cases hh; exact h
            · rw [if_neg h6] at hh; cases hh; exact h

theorem uniqueActiveStart_handleDB (env : Env) (msg : String) (ctx : Option CtxEvent)
    (db : DB) (hni : extractIntent msg ≠ "edit") (h : UniqueActiveStart db) :
    UniqueActiveStart (handleDB env msg ctx db) := by
  unfold handleDB
  cases hh : handleUserMessage env msg ctx db with
  | none => exact h
  | some out => exact handle_unique hh hni h

theorem uniqueActiveStart_runSeq (steps : List Step)
    (hsteps : ∀ s ∈ steps, extractIntent s.msg ≠ "edit") :
    ∀ db, UniqueActiveStart db → UniqueActiveStart (runSeq steps db) := by
  induction steps with
  | nil => exact fun _ h => h
  | cons s t ih =>
    intro db h
    exact ih (fun x hx => hsteps x (List.mem_cons_of_mem _ hx)) _
      (uniqueActiveStart_handleDB s.env s.msg s.ctx db
        (hsteps s (List.mem_cons_self _ _)) h)

/-! ## Concrete scenario used by the claim witnesses and counterexamples -/

def dtJun28 : DateTime := ⟨2025, 6, 28, 0, 0⟩

def dtJun29 : DateTime := ⟨2025, 6, 29, 0, 0⟩

def msgBook1 : String := "book an event on 28 June"

def msgBook2 : String := "book an event on 29 June"

def msgEdit1 : String := "move my last event to tomorrow"

/-- `search_dates` behaviour on the scenario's messages (as dateparser
resolves them on 2025-06-27). -/
def sdEx : String → Option DateTime := fun s =>
  if s = msgBook1 then some dtJun28
  else if s = msgBook2 then some dtJun29
  else if s = msgEdit1 then some dtJun28
  else none

def dtJun26 : DateTime := ⟨2025, 6, 26, 0, 0⟩

/-- `dateparser.parse` behaviour on the scenario's serialised datetimes. -/
def dpEx : String → Option DateTime := fun s =>
  if s = isoformat dtJun28 then some dtJun28
  else if s = isoformat dtJun29 then some dtJun29
  else if s = isoformat dtJun26 then some dtJun26
  else none

def envEx : Env := ⟨sdEx, dpEx, fun _ d => d, ⟨2025, 6, 27, 12, 0⟩⟩

/-- Book 28 June, book 29 June, then `move my last event` onto 28 June. -/
def stepsDup : List Step :=
  [⟨envEx, msgBook1, none⟩, ⟨envEx, msgBook2, none⟩, ⟨envEx, msgEdit1, none⟩]

/-- The same scenario without the edit step. -/
def stepsBookOnly : List Step := [⟨envEx, msgBook1, none⟩, ⟨envEx, msgBook2, none⟩]

/-! ## C1 -/

/-- C1 (counterexample): the claimed invariant is not preserved by every
`handle_user_message` sequence.  From the empty ledger, booking 28 June,
booking 29 June, and then editing the last booking onto 28 June leaves two
`active` rows with the identical `start_time`
`"2025-06-28T00:00:00+00:00"`: the edit branch performs no collision scan. -/
theorem c1_counterexample : ¬ UniqueActiveStart (runSeq stepsDup dbEmpty) := by
  unfold UniqueActiveStart
  rw [nodup_iff_dupStartB]
  intro hfalse
  have htrue : dupStartB (activeStarts (runSeq stepsDup dbEmpty)) = true := by rfl
  rw [htrue] at hfalse
  exact Bool.noConfusion hfalse

/-- C1 (amended): starting from the empty ledger, after any sequence of
`handle_user_message` operations none of which classifies as `edit`, every
reachable ledger state contains at most one `active` row per `start_time`
string — the book branch scans for collisions before insert, cancel only
deactivates rows, and all other intents leave the ledger unchanged.  The
edit branch, excluded here, can violate the invariant
(`c1_counterexample`). -/
theorem c1_theorem (steps : List Step)
    (hsteps : ∀ s ∈ steps, extractIntent s.msg ≠ "edit") :
    UniqueActiveStart (runSeq steps dbEmpty) :=
  uniqueActiveStart_runSeq steps hsteps dbEmpty
    (by simp [UniqueActiveStart, activeStarts, dbEmpty])

/-- C1 (witness): the amended theorem applied to the two book steps of the
concrete scenario. -/
theorem c1_witness : UniqueActiveStart (runSeq stepsBookOnly dbEmpty) :=
  c1_theorem stepsBookOnly (by decide)

/-! ## C2 -/

/-- C2: for every book request with `ambiguity` false (whose serialised
datetime re-parses, as `dateparser` always does on `isoformat` output), if
some active row already carries exactly the extracted `start_time` string
the reply is "You already have an event at that time." and the ledger is
untouched; otherwise exactly one new active row is appended. -/
theorem c2_theorem (env : Env) (msg : String) (ctx : Option CtxEvent) (db : DB)
    (slots : Slots) (d d2 : DateTime)
    (hintent : extractIntent msg = "book")
    (hslots : extractSlots env msg ctx = some slots)
    (hamb : slots.ambiguity = false)
    (hdt : slots.dt = some d)
    (hdp : env.dp (isoformat d) = some d2) :
    ((∃ b ∈ db.rows, b.status = "active" ∧ b.start_time = isoformat d) →
      handleUserMessage env msg ctx db =
        some (db, "You already have an event at that time.")) ∧
    (¬(∃ b ∈ db.rows, b.status = "active" ∧ b.start_time = isoformat d) →
      handleUserMessage env msg ctx db =
        some (⟨db.rows ++ [⟨db.nextId, slots.summary, eventIdOf env.now, isoformat d,
                  isoformat (addMinutes d2 slots.duration), slots.timezone, "active",
                  isoformat env.now, isoformat env.now⟩], db.nextId + 1⟩,
              bookReply slots (isoformat d))) := by
  have hmain : handleUserMessage env msg ctx db = bookBranch env slots db := by
    unfold handleUserMessage
    rw [hslots]
    dsimp only
    rw [if_pos hintent]
  constructor
  · intro hex
    rw [hmain]
    unfold bookBranch
    rw [hdt]
    simp [hamb, hdp, hasCollision_iff.mpr hex]
  · intro hnex
    have hcol : hasCollision db (isoformat d) = false := by
      cases hc : hasCollision db (isoformat d)
      · rfl
      · exact absurd (hasCollision_iff.mp hc) hnex
    rw [hmain]
    unfold bookBranch
    rw [hdt]
    simp only [hamb, Bool.false_eq_true, if_false, hdp, hcol]
    rfl

/-- The slot record `extract_slots` produces for `msgBook1` under `envEx`. -/
def slotsBook1 : Slots := ⟨some dtJun28, 30, "Event", "UTC", [], false, some "28 "⟩

/-- C2 (witness): booking 28 June on the empty ledger inserts exactly one
active row. -/
theorem c2_witness :
    extractSlots envEx msgBook1 none = some slotsBook1 ∧
    handleUserMessage envEx msgBook1 none dbEmpty =
      some (⟨[⟨0, "Event", eventIdOf envEx.now, isoformat dtJun28,
                isoformat (addMinutes dtJun28 30), "UTC", "active",
                isoformat envEx.now, isoformat envEx.now⟩], 1⟩,
            bookReply slotsBook1 (isoformat dtJun28)) :=
  ⟨by rfl,
   (c2_theorem envEx msgBook1 none dbEmpty slotsBook1 dtJun28 dtJun28
      (by rfl) (by rfl) (by rfl) (by rfl) (by rfl)).2 (by simp [dbEmpty])⟩

/-! ## C10 -/

/-- C10: for every request whose classified intent is `list`, `check`,
`help`, or `unknown`, `handle_user_message` performs no ledger mutation —
the store after the call (also when an exception escapes) is identical to
the store before; those branches issue no save, cancel, or update. -/
theorem c10_theorem (env : Env) (msg : String) (ctx : Option CtxEvent) (db : DB)
    (hintent : extractIntent msg = "list" ∨ extractIntent msg = "check" ∨
      extractIntent msg = "help" ∨ extractIntent msg = "unknown") :
    handleDB env msg ctx db = db := by
  unfold handleDB handleUserMessage
  cases hs : extractSlots env msg ctx with
  | none => rfl
  | some slots =>
    dsimp only
    have hb : extractIntent msg ≠ "book" := by
      rcases hintent with h | h | h | h <;> simp [h]
    have hc : extractIntent msg ≠ "cancel" := by
      rcases hintent with h | h | h | h <;> simp [h]
    have he : extractIntent msg ≠ "edit" := by
      rcases hintent with h | h | h | h <;> simp [h]
    rw [if_neg hb, if_neg hc, if_neg he]
    by_cases h4 : extractIntent msg = "list"
    · rw [if_pos h4]
      cases hl : listBranch env db with
      | none => rfl
      | some out => exact listBranch_fst hl
    · rw [if_neg h4]
      by_cases h5 : extractIntent msg = "check"
      · rw [if_pos h5]
        cases hk : checkBranch db with
        | none => rfl
        | some out => exact checkBranch_fst hk
      · rw [if_neg h5]
        by_cases h6 : extractIntent msg = "help"
        · rw [if_pos h6]
        · rw [if_neg h6]

def msgList : String := "what are my events"

/-- An active booking row at 28 June. -/
def rowJun28 : Booking :=
  ⟨0, "Event", "evt0", isoformat dtJun28, isoformat (addMinutes dtJun28 30),
    "UTC", "active", "t0", "t0"⟩

/-- A one-row ledger used by several witnesses. -/
def dbOneRow : DB := ⟨[rowJun28], 1⟩

/-- C10 (witness): a list request leaves a one-row ledger unchanged. -/
theorem c10_witness : handleDB envEx msgList none dbOneRow = dbOneRow :=
  c10_theorem envEx msgList none dbOneRow (Or.inl (by rfl))

/-! ## C4 -/

/-- C4: for every input (and optional context event) on which
`extract_slots` returns, the ambiguity flag is true iff the parsed datetime
is absent or the lowercased text contains one of the vague-time phrases
`"next week"`, `"someday"`, `"later"`, `"soon"`, `"whenever"`,
`"some time"`, `"not sure"` as a substring. -/
theorem c4_theorem (env : Env) (msg : String) (ctx : Option CtxEvent) (slots : Slots)
    (hslots : extractSlots env msg ctx = some slots) :
    slots.ambiguity = true ↔ (slots.dt = none ∨ vagueB msg = true) := by
  unfold extractSlots at hslots
  cases hr : refineDT (env.sd msg) msg with
  | none => rw [hr] at hslots; exact Option.noConfusion hslots
  | some dtOpt =>
    rw [hr] at hslots
    dsimp only at hslots
    cases hslots
    cases dtOpt <;> simp

def msgVague : String := "hello later"

/-- The slot record `extract_slots` produces for `msgVague`. -/
def slotsVague : Slots := ⟨none, 30, "Event", "UTC", [], true, none⟩

/-- C4 (witness): `"hello later"` parses to no datetime and contains a
vague phrase; its ambiguity flag is true. -/
theorem c4_witness :
    extractSlots envEx msgVague none = some slotsVague ∧
    (slotsVague.ambiguity = true ↔ (slotsVague.dt = none ∨ vagueB msgVague = true)) :=
  ⟨by rfl, c4_theorem envEx msgVague none slotsVague (by rfl)⟩

/-! ## C5 -/

def msgMinHour : String := "book 45 min then 1 hour"

/-- C5 (counterexample): `"book 45 min then 1 hour"` matches `<N> min` with
N = 45, yet the extracted duration is 60, because the code checks the
literal `1 ?hour` pattern before the minute pattern — the minute match does
not take precedence over a later hour phrase. -/
theorem c5_counterexample :
    minMatch msgMinHour = some 45 ∧
    (extractSlots envEx msgMinHour none).map Slots.duration = some 60 ∧
    (60 : Nat) ≠ 45 :=
  ⟨by rfl, by rfl, by decide⟩

/-- C5 (amended): whenever the text does not match the literal `1 ?hour`
pattern (which the code checks first), a `<N> min` match dictates the
duration, taking precedence over any `<N> hour` match elsewhere in the
string. -/
theorem c5_theorem (env : Env) (msg : String) (ctx : Option CtxEvent) (slots : Slots)
    (n : Nat)
    (hslots : extractSlots env msg ctx = some slots)
    (hhour : oneHourB msg = false)
    (hmin : minMatch msg = some n) :
    slots.duration = n := by
  unfold extractSlots at hslots
  cases hr : refineDT (env.sd msg) msg with
  | none => rw [hr] at hslots; exact Option.noConfusion hslots
  | some dtOpt =>
    rw [hr] at hslots
    dsimp only at hslots
    cases hslots
    simp [hhour, hmin]

def msgMin : String := "book 45 min"

/-- The slot record `extract_slots` produces for `msgMin`. -/
def slotsMin : Slots := ⟨none, 45, "Event", "UTC", [], true, some "45 "⟩

/-- C5 (witness): with no `1 ?hour` match, `"book 45 min"` yields
duration 45. -/
theorem c5_witness :
    extractSlots envEx msgMin none = some slotsMin ∧ oneHourB msgMin = false ∧
    minMatch msgMin = some 45 ∧ slotsMin.duration = 45 :=
  ⟨by rfl, by rfl, by rfl,
   c5_theorem envEx msgMin none slotsMin 45 (by rfl) (by rfl) (by rfl)⟩

/-! ## C9 -/

/-- C9: for every message in which the time pattern does not match (no
digit), the `(event|call|appointment) (about|on|for)` pattern does not
match, and the lowercased text contains neither `"last"` nor `"next"`,
`extract_reference` returns `"context"` exactly when the lowercased text
contains `"it"`, `"that"`, or `"this"` as a substring anywhere — including
inside longer words such as `"with"` — not only as a standalone word. -/
theorem c9_theorem (msg : String)
    (ht : timeRefMatch msg = none)
    (hs : summaryRefMatch msg = none)
    (hl : containsCI msg "last" = false)
    (hn : containsCI msg "next" = false) :
    extractReference msg = some "context" ↔
      (containsCI msg "it" || containsCI msg "that" || containsCI msg "this") = true := by
  unfold extractReference
  rw [ht]
  dsimp only
  rw [hs]
  dsimp only
  cases hp : (containsCI msg "it" || containsCI msg "that" || containsCI msg "this") <;>
    simp [hl, hn, hp]

def msgWith : String := "with flowers"

/-- C9 (witness): `"with flowers"` has no time token, no summary phrase, no
`last`/`next`, and contains `"it"` only inside `"with"`; the extracted
reference is `"context"`. -/
theorem c9_witness :
    timeRefMatch msgWith = none ∧ summaryRefMatch msgWith = none ∧
    containsCI msgWith "last" = false ∧ containsCI msgWith "next" = false ∧
    extractReference msgWith = some "context" :=
  ⟨by rfl, by rfl, by rfl, by rfl,
   (c9_theorem msgWith (by rfl) (by rfl) (by rfl) (by rfl)).mpr (by rfl)⟩

/-! ## C3 -/

/-- C3: in the list branch, every listed booking whose parsed `start_time`
is strictly before "now" appears exactly in the past (held) section, and
every booking whose `start_time` is at or after "now" appears exactly in
the upcoming section; the boundary is inclusive on the future side
(`>= now`), and no booking is in both sections.  (The two `datetime.now`
calls of the source are modelled as the single instant `env.now`.) -/
theorem c3_theorem (env : Env) (db : DB) (held upcoming : List Booking) (b : Booking)
    (t : DateTime)
    (hpart : listPartition env db = some (held, upcoming))
    (hb : b ∈ listBookings db)
    (hdp : env.dp b.start_time = some t) :
    (b ∈ held ↔ toMin t < toMin env.now) ∧
    (b ∈ upcoming ↔ toMin env.now ≤ toMin t) ∧
    ¬(b ∈ held ∧ b ∈ upcoming) := by
  unfold listPartition at hpart
  split at hpart
  · cases hpart
    have hh : b ∈ (listBookings db).filter (fun b =>
        match env.dp b.start_time with
        | some d => decide (toMin d < toMin env.now)
        | none => false) ↔ toMin t < toMin env.now := by
      simp [List.mem_filter, hb, hdp]
    have hu : b ∈ (listBookings db).filter (fun b =>
        match env.dp b.start_time with
        | some d => decide (toMin env.now ≤ toMin d)
        | none => false) ↔ toMin env.now ≤ toMin t := by
      simp [List.mem_filter, hb, hdp]
    exact ⟨hh, hu, fun hx => absurd (hh.mp hx.1) (Nat.not_lt.mpr (hu.mp hx.2))⟩
  · exact Option.noConfusion hpart

/-- A booking strictly before the scenario's `now` (2025-06-27 12:00). -/
def rowPast : Booking :=
  ⟨0, "Past", "e0", isoformat dtJun26, isoformat (addMinutes dtJun26 30),
    "UTC", "active", "t0", "t0"⟩

/-- A booking after the scenario's `now`. -/
def rowFuture : Booking :=
  ⟨1, "Event", "e1", isoformat dtJun28, isoformat (addMinutes dtJun28 30),
    "UTC", "active", "t0", "t0"⟩

def dbTwoRows : DB := ⟨[rowPast, rowFuture], 2⟩

/-- C3 (witness): with one past and one future booking, the past booking is
exactly in the held section. -/
theorem c3_witness :
    listPartition envEx dbTwoRows = some ([rowPast], [rowFuture]) ∧
    ((rowPast ∈ [rowPast] ↔ toMin dtJun26 < toMin envEx.now) ∧
     (rowPast ∈ [rowFuture] ↔ toMin envEx.now ≤ toMin dtJun26) ∧
     ¬(rowPast ∈ [rowPast] ∧ rowPast ∈ [rowFuture])) :=
  ⟨by rfl,
   c3_theorem envEx dbTwoRows [rowPast] [rowFuture] rowPast dtJun26
     (by rfl) (by decide) (by rfl)⟩

theorem ctxScan_mem {c : CtxEvent} {bs : List Booking} {b : Booking}
    (h : ctxScan c bs = some b) : b ∈ bs := by
  unfold ctxScan at h
  exact List.mem_of_find?_eq_some h

theorem genericScan_mem {r : String} {bs : List Booking} {b : Booking}
    (h : genericScan r bs = some b) : b ∈ bs := by
  unfold genericScan at h
  exact List.mem_of_find?_eq_some h

theorem findBookingByReference_active {r : String} {ctx : Option CtxEvent} {db : DB}
    {b : Booking} (h : findBookingByReference r ctx db = some b) :
    b.status = "active" := by
  unfold findBookingByReference at h
  split at h
  · exact Option.noConfusion h
  · split at h
    · exact (mem_listBookings.mp (List.mem_of_mem_getLast? h)).2
    · split at h
      · exact (mem_listBookings.mp (List.mem_of_mem_head? h)).2
      · split at h
        · split at h
          · split at h
            · rename_i b2 heq
              cases h
              exact (mem_listBookings.mp (ctxScan_mem heq)).2
            · exact (mem_listBookings.mp (genericScan_mem h)).2
          · exact (mem_listBookings.mp (genericScan_mem h)).2
        · exact (mem_listBookings.mp (genericScan_mem h)).2

theorem getLastBooking_active {db : DB} {b : Booking}
    (h : getLastBooking db = some b) : b.status = "active" := by
  unfold getLastBooking at h
  have hm := List.mem_of_mem_getLast? h
  rw [List.mem_filter] at hm
  exact beq_iff_eq.mp hm.2

/-- Whatever the cancel/edit target resolution returns is an active row:
the resolver and `get_last_booking` query only active bookings, so a
cancelled record is never re-found. -/
theorem cancelResolve_active {slots : Slots} {ctx : Option CtxEvent} {db : DB}
    {b : Booking} (h : cancelResolve slots ctx db = some b) :
    b.status = "active" := by
  unfold cancelResolve at h
  split at h
  · split at h
    · exact findBookingByReference_active h
    · exact getLastBooking_active h
  · exact getLastBooking_active h

/-! ## C6 -/

/-- C6: a cancel request whose target resolution finds no active booking —
in particular `"cancel my last event"` on an empty ledger, or when every
candidate row is already cancelled (the resolver queries only active rows)
— replies "No matching event found to cancel." and leaves the ledger
unchanged; and `cancel_booking` on a booking that is not active is a ledger
no-op. -/
theorem c6_theorem :
    (∀ (env : Env) (msg : String) (ctx : Option CtxEvent) (db : DB) (slots : Slots),
      extractIntent msg = "cancel" →
      extractSlots env msg ctx = some slots →
      cancelResolve slots ctx db = none →
      handleUserMessage env msg ctx db =
        some (db, "No matching event found to cancel.")) ∧
    (∀ (slots : Slots) (ctx : Option CtxEvent) (db : DB) (b : Booking),
      cancelResolve slots ctx db = some b → b.status = "active") ∧
    (∀ (nowS : String) (bid : Nat) (db : DB),
      (∀ r ∈ db.rows, r.id = bid → r.status ≠ "active") →
      dbCancel nowS bid db = db) := by
  refine ⟨?_, fun _ _ _ _ h => cancelResolve_active h, ?_⟩
  · intro env msg ctx db slots hintent hslots hres
    unfold handleUserMessage
    rw [hslots]
    dsimp only
    rw [if_neg (by rw [hintent]; decide), if_pos hintent]
    unfold cancelBranch
    rw [hres]
  · intro nowS bid db hno
    unfold dbCancel
    have hrows : db.rows.map (fun r =>
        if r.id == bid && r.status == "active" then
          { r with status := "cancelled", updated_at := nowS }
        else r) = db.rows := by
      rw [List.map_congr_left (g := id), List.map_id]
      intro r hr
      have hne : ¬(r.id == bid && r.status == "active") = true := by
        intro hb
        obtain ⟨h1, h2⟩ := (Bool.and_eq_true _ _).mp hb
        exact hno r hr (beq_iff_eq.mp h1) (beq_iff_eq.mp h2)
      rw [if_neg hne]
      rfl
    rw [hrows]

def msgCancel : String := "cancel my last event"

/-- The slot record `extract_slots` produces for `msgCancel`. -/
def slotsCancel : Slots := ⟨none, 30, "Event", "UTC", [], true, some "last"⟩

/-- A ledger whose only row is already cancelled. -/
def dbCancelled : DB :=
  ⟨[⟨0, "Event", "evt0", isoformat dtJun28, isoformat (addMinutes dtJun28 30),
      "UTC", "cancelled", "t0", "t0"⟩], 1⟩

/-- C6 (witness): `"cancel my last event"` on the empty ledger replies
"No matching event found to cancel." with no mutation, and cancelling the
already-cancelled row 0 leaves the ledger unchanged. -/
theorem c6_witness :
    handleUserMessage envEx msgCancel none dbEmpty =
      some (dbEmpty, "No matching event found to cancel.") ∧
    (cancelResolve slotsCancel none dbOneRow = some rowJun28 ∧
      rowJun28.status = "active") ∧
    dbCancel "t1" 0 dbCancelled = dbCancelled :=
  ⟨c6_theorem.1 envEx msgCancel none dbEmpty slotsCancel (by rfl) (by rfl) (by rfl),
   ⟨by rfl, c6_theorem.2.1 slotsCancel none dbOneRow rowJun28 (by rfl)⟩,
   c6_theorem.2.2 "t1" 0 dbCancelled (by decide)⟩

/-! ## C7 -/

/-- C7 (counterexample): when the provider result is an error, the booking
path of `confirm_booking_node` records nothing in the local ledger (no
ledger operation at all) and its reply is the generic
"Booking failed. Please try again." — not a reply reporting the provider
error: the shadowed `datetime` import makes the first line of the `try`
raise before the provider is ever consulted, so the engine neither records
the booking locally nor reports the provider error. -/
theorem c7_counterexample :
    confirmBookingNode (isoformat dtJun28) 30 "Team sync" (ProviderResult.err "boom") =
      ("Booking failed. Please try again.", []) ∧
    "Booking failed. Please try again." ≠ "Failed to book: boom" :=
  ⟨by rfl, by decide⟩

/-- C7 (amended): no reachable path records a booking locally after a
provider failure, because no reachable path ever invokes the provider.
`confirm_booking_node` raises `AttributeError` on the first line of its
`try` (agent.py line 18's `from datetime import datetime` shadows line 3's
`import datetime`, so `datetime.datetime.fromisoformat` fails on every
input): for every slot string, duration, summary and provider behaviour it
replies "Booking failed. Please try again." and issues no ledger operation
— the "Failed to book: <error>" branch is dead code.
(`handle_user_message`'s book branch never invokes the provider either, so
its local save is trivially independent of remote failures.) -/
theorem c7_theorem :
    ∀ (s : String) (dur : Nat) (su : String) (pr : ProviderResult),
      confirmBookingNode s dur su pr = ("Booking failed. Please try again.", []) := by
  intro s dur su pr
  rfl

/-! ## C8 -/

def dt2019 : DateTime := ⟨2019, 6, 28, 10, 0⟩

def dt2030 : DateTime := ⟨2030, 6, 28, 10, 0⟩

def rowB2019 : Booking :=
  ⟨0, "Sync", "e1", isoformat dt2019, isoformat (addMinutes dt2019 30),
    "UTC", "active", "t", "t"⟩

def rowB2030 : Booking :=
  ⟨1, "Sync", "e2", isoformat dt2030, isoformat (addMinutes dt2030 30),
    "UTC", "active", "t", "t"⟩

/-- `dateparser.parse` behaviour on the two start times of the C8 rows. -/
def dpC8 : String → Option DateTime := fun s =>
  if s = isoformat dt2019 then some dt2019
  else if s = isoformat dt2030 then some dt2030
  else none

def envC8 : Env := ⟨fun _ => none, dpC8, fun _ d => d, dtJun28⟩

/-- C8 (counterexample): the rendered format
`"%A, %B %d at %I:%M %p"` carries no year: 2019-06-28 10:00 and
2030-06-28 10:00 (both Fridays) format to the identical text, so re-parsing
the embedded date/time substring cannot yield both original start times —
the failure is eleven years, far beyond minute precision. -/
theorem c8_counterexample :
    formatEventNatural envC8 rowB2019 = formatEventNatural envC8 rowB2030 ∧
    rowB2019.start_time ≠ rowB2030.start_time ∧ dt2019 ≠ dt2030 :=
  ⟨by rfl, by decide, by decide⟩

/-- C8 (amended): the rendered text determines the start time only up to
the year.  Supplying the booking's original year, re-parsing the rendered
fields (weekday, month name, day, 12-hour clock, minutes, AM/PM) recovers
the original start time exactly, at minute precision. -/
theorem c8_theorem (dt : DateTime) (hv : ValidDT dt) :
    parseRendered (toRendered dt) dt.year = some dt := by
  obtain ⟨y, mo, dd, hh, mi⟩ := dt
  unfold ValidDT at hv
  dsimp only at hv
  obtain ⟨hy, hm1, hm2, hd1, hd2, hhb, hmb⟩ := hv
  have hmn : monthFromName (monthName mo) = some mo := by
    interval_cases mo <;> rfl
  have h24 : hour24 (hour12 hh) (isPM hh) = hh := by
    simp only [hour24, hour12, isPM, decide_eq_true_eq]
    split_ifs <;> omega
  unfold parseRendered toRendered
  dsimp only
  rw [hmn]
  dsimp only
  rw [h24]

/-- C8 (witness): the amended round-trip at the concrete 2019 booking. -/
theorem c8_witness :
    ValidDT dt2019 ∧ parseRendered (toRendered dt2019) dt2019.year = some dt2019 :=
  ⟨by decide, c8_theorem dt2019 (by decide)⟩

end CalendarAgent
